import Mathlib

/-!
Verification development for the hsms-ts-sim repository.

The TypeScript source is shallowly embedded in Lean 4:

* JSON values (the `any`-typed template/value trees the code manipulates)
  become the inductive `Json`; JavaScript runtime coercions used by the
  source (`String(..)`, `Number(..)`, truthiness, `||`, `??`) become the
  `js*` helper functions.
* `src/template-manager.ts` (src/unnamed/part_000): `loadTemplate`,
  `substitutePlaceholders`, `buildDataItems`, `sendTemplate`.
* `src/server.ts` (template-server revision): the `pendingReplies` table,
  the `trx-complete` handler, `sendAndWaitIfNeeded`, `findPlaceholders`,
  and the `POST /send-template` and `GET /templates/:name` handlers.

External collaborators (the hsms-driver transport, the filesystem and
`JSON.parse`) are passed in as function parameters, mirroring the spec's
treatment of them as black-box capabilities.
-/

/-- JSON-representable JavaScript values, the payloads the source code
manipulates.  JS numbers are modelled as rationals (`Rat`); none of the
verified properties depends on floating-point rounding. -/
inductive Json : Type where
  | null : Json
  | bool (b : Bool) : Json
  | num (q : Rat) : Json
  | str (s : String) : Json
  | arr (elems : List Json) : Json
  | obj (fields : List (String × Json)) : Json

/-- Whitespace as matched by the regex class `\s` (restricted to the common
ASCII whitespace characters; the templates under verification use plain
spaces). -/
def isWs (c : Char) : Bool :=
  c = ' ' || c = '\t' || c = '\n' || c = '\r'

/-- Own-property lookup on a plain JS object, modelled as an association
list in insertion order (`Object.prototype.hasOwnProperty.call(o, k)`
followed by `o[k]`).  JSON object keys are unique, so first-match lookup
is faithful. -/
def lookupOwn (values : List (String × Json)) (k : String) : Option Json :=
  match values with
  | [] => none
  | (k', v) :: rest => if k' = k then some v else lookupOwn rest k

/-- Property access `j.k` / `j[k]` for own properties; `none` models
`undefined` (missing key, or access on a non-object primitive). -/
def jsField (j : Json) (k : String) : Option Json :=
  match j with
  | .obj fields => lookupOwn fields k
  | _ => none

/-- JavaScript truthiness of a JSON value. -/
def jsTruthy (j : Json) : Bool :=
  match j with
  | .null => false
  | .bool b => b
  | .num q => q != 0
  | .str s => s ≠ ""
  | .arr _ => true
  | .obj _ => true

/-- Truthiness of a possibly-`undefined` value. -/
def jsTruthyOpt (v : Option Json) : Bool :=
  match v with
  | some j => jsTruthy j
  | none => false

/-- The JS `a || d` default operator on a possibly-`undefined` `a`. -/
def jsOr (v : Option Json) (d : Json) : Json :=
  match v with
  | some j => if jsTruthy j then j else d
  | none => d

/-- The JS `a ?? d` nullish-coalescing operator on a possibly-`undefined`
`a` (both `undefined` and `null` fall through to the default). -/
def jsCoalesce (v : Option Json) (d : Json) : Json :=
  match v with
  | some Json.null => d
  | some j => j
  | none => d

/-- Rendering of a JS number as a string.  Integer values render exactly as
JS does; non-integer rationals use a `num/den` rendering (an admitted
approximation of JS float formatting — no verified property inspects such
a string). -/
def ratToString (q : Rat) : String :=
  if q.den = 1 then toString q.num else toString q.num ++ "/" ++ toString q.den

mutual

/-- JS `String(v)` / `v.toString()` conversion.  Arrays stringify as their
elements joined with commas (with `null` elements rendering empty), objects
as `[object Object]`. -/
def jsToString (j : Json) : String :=
  match j with
  | .null => "null"
  | .bool b => if b then "true" else "false"
  | .num q => ratToString q
  | .str s => s
  | .arr l => jsArrToString l
  | .obj _ => "[object Object]"

/-- `Array.prototype.toString`, i.e. `join(",")`. -/
def jsArrToString (l : List Json) : String :=
  match l with
  | [] => ""
  | x :: xs =>
      let hd := match x with
        | Json.null => ""
        | _ => jsToString x
      match xs with
      | [] => hd
      | _ => hd ++ "," ++ jsArrToString xs

end

/-- ASCII upper-casing, modelling `String.prototype.toUpperCase` on the
type tags the source dispatches on. -/
def jsToUpper (s : String) : String :=
  ⟨s.toList.map Char.toUpper⟩

/-- ASCII lower-casing, modelling `String.prototype.toLowerCase`. -/
def jsToLower (s : String) : String :=
  ⟨s.toList.map Char.toLower⟩

/-- Strip leading and trailing whitespace (`String.prototype.trim`). -/
def trimChars (cs : List Char) : List Char :=
  ((cs.dropWhile isWs).reverse.dropWhile isWs).reverse

/-- `String.prototype.trim`. -/
def jsTrim (s : String) : String :=
  ⟨trimChars s.toList⟩

/-- Value of a decimal digit string. -/
def digitsToNat (cs : List Char) : Nat :=
  cs.foldl (fun acc c => 10 * acc + (c.toNat - '0'.toNat)) 0

/-- `Number(string)` conversion: trimmed-empty gives `0`; an optional sign
followed by decimal digits with an optional fraction parses as that value;
anything else is `NaN` (`none`).  This covers the decimal core of the JS
numeric grammar; exponents and hex literals (which no verified property
exercises) also fall to `NaN` here. -/
def parseJsNumberChars (cs : List Char) : Option Rat :=
  let t := trimChars cs
  if t = [] then some 0
  else
    let signed : Rat × List Char :=
      match t with
      | '-' :: r => (-1, r)
      | '+' :: r => (1, r)
      | r => (1, r)
    let intPart := signed.2.takeWhile (fun c => c ≠ '.')
    let rest := signed.2.dropWhile (fun c => c ≠ '.')
    let fracPart := match rest with
      | '.' :: f => some f
      | _ => none
    if intPart.all Char.isDigit then
      match fracPart with
      | none =>
          if intPart = [] then none
          else some (signed.1 * (digitsToNat intPart : Rat))
      | some f =>
          if f.all Char.isDigit && (!intPart.isEmpty || !f.isEmpty) then
            some (signed.1 * ((digitsToNat intPart : Rat) +
              (digitsToNat f : Rat) / ((10 : Rat) ^ f.length)))
          else none
    else none

/-- `Number(v)`; `none` models `NaN`.  Arrays and objects convert via their
string form, as JS does. -/
def jsToNumber (j : Json) : Option Rat :=
  match j with
  | .null => some 0
  | .bool b => some (if b then 1 else 0)
  | .num q => some q
  | .str s => parseJsNumberChars s.toList
  | .arr _ => parseJsNumberChars (jsToString j).toList
  | .obj _ => parseJsNumberChars (jsToString j).toList

/-- `String(n)` for a JS number (`NaN` included). -/
def jsNumToString (n : Option Rat) : String :=
  match n with
  | none => "NaN"
  | some q => ratToString q

/-- Minimal JSON string escaping (quote and backslash), for
`JSON.stringify` of string leaves.  Control-character escapes are omitted;
no verified property inspects such output. -/
def escapeJsonChar (c : Char) : List Char :=
  if c = '"' then ['\\', '"']
  else if c = '\\' then ['\\', '\\']
  else [c]

/-- Escape a string for inclusion in JSON output. -/
def escapeJson (s : String) : String :=
  ⟨s.toList.foldr (fun c acc => escapeJsonChar c ++ acc) []⟩

mutual

/-- `JSON.stringify` on a JSON value. -/
def jsonStringify (j : Json) : String :=
  match j with
  | .null => "null"
  | .bool b => if b then "true" else "false"
  | .num q => ratToString q
  | .str s => "\"" ++ escapeJson s ++ "\""
  | .arr l => "[" ++ stringifyArr l ++ "]"
  | .obj fs => "\x7b" ++ stringifyFields fs ++ "\x7d"

/-- Comma-joined stringification of array elements. -/
def stringifyArr (l : List Json) : String :=
  match l with
  | [] => ""
  | [x] => jsonStringify x
  | x :: xs => jsonStringify x ++ "," ++ stringifyArr xs

/-- Comma-joined stringification of object entries. -/
def stringifyFields (fs : List (String × Json)) : String :=
  match fs with
  | [] => ""
  | [(k, v)] => "\"" ++ escapeJson k ++ "\":" ++ jsonStringify v
  | (k, v) :: rest =>
      "\"" ++ escapeJson k ++ "\":" ++ jsonStringify v ++ "," ++ stringifyFields rest

end

/- ------------------------------------------------------------------ -/
/- Placeholder substitution engine (src/template-manager.ts)          -/
/- ------------------------------------------------------------------ -/

/-- The full-string placeholder regex test `/^{{\s*([^}]+)\s*}}$/` with its
capture, on the character list of a string.  Backtracking semantics of the
regex: the string must be two opening braces, then an inner run containing
no closing brace, then exactly two closing braces; the greedy leading
`\s*` strips whitespace from the front of the capture, while trailing
whitespace inside the braces is consumed by the greedy `[^}]+` and so
remains part of the capture.  When the inner run is whitespace only, the
leading `\s*` backtracks by exactly one character so that `[^}]+` can
match it: the match succeeds with that final whitespace character as the
capture. -/
def tokenKeyChars (cs : List Char) : Option (List Char) :=
  match cs with
  | '{' :: '{' :: rest =>
      let inner := rest.takeWhile (fun c => c ≠ '}')
      let tail := rest.dropWhile (fun c => c ≠ '}')
      if tail = ['}', '}'] then
        let key := inner.dropWhile isWs
        if key = [] then
          match inner.getLast? with
          | some c => some [c]
          | none => none
        else some key
      else none
  | _ => none

/-- `s.match(/^{{\s*([^}]+)\s*}}$/)`, returning the captured key. -/
def tokenKey (s : String) : Option String :=
  (tokenKeyChars s.toList).map (fun cs => ⟨cs⟩)

mutual

/-- `substitutePlaceholders` from src/template-manager.ts: string leaves
matching the full-token pattern are replaced by the value table's entry
for the captured key when the table has that own key, otherwise left
verbatim; arrays and objects recurse; other scalars pass through. -/
def substitutePlaceholders (obj : Json) (values : List (String × Json)) : Json :=
  match obj with
  | .null => obj
  | .str s =>
      match tokenKey s with
      | some k =>
          match lookupOwn values k with
          | some v => v
          | none => obj
      | none => obj
  | .arr l => .arr (substList l values)
  | .obj fields => .obj (substFields fields values)
  | _ => obj

/-- Element-wise substitution over an array (`obj.map(i => ...)`). -/
def substList (l : List Json) (values : List (String × Json)) : List Json :=
  match l with
  | [] => []
  | x :: xs => substitutePlaceholders x values :: substList xs values

/-- Key-wise substitution over an object's entries
(`for (const [k, v] of Object.entries(obj)) out[k] = ...`).  The JS
assignment creates an own key on the fresh `out` object for every key
except `__proto__`: there it invokes the inherited `Object.prototype`
accessor and creates no own property, so such an entry (reachable, since
`JSON.parse` does create own `__proto__` data properties on input
objects) is dropped from the output.  (The accessor's prototype-mutation
side effect on `out` is not modelled.) -/
def substFields (fs : List (String × Json)) (values : List (String × Json)) :
    List (String × Json) :=
  match fs with
  | [] => []
  | (k, v) :: rest =>
      if k = "__proto__" then substFields rest values
      else (k, substitutePlaceholders v values) :: substFields rest values

end

/-- Insertion into the `Set` accumulator of `findPlaceholders`
(`found.add(k)`): dedupes, preserving first-insertion order. -/
def addToSet (found : List String) (k : String) : List String :=
  if k ∈ found then found else found ++ [k]

mutual

/-- `findPlaceholders` from src/server.ts: the same tree walk as
substitution, collecting every captured placeholder key. -/
def findPlaceholders (obj : Json) (found : List String) : List String :=
  match obj with
  | .null => found
  | .str s =>
      match tokenKey s with
      | some k => addToSet found k
      | none => found
  | .arr l => findPlaceholdersList l found
  | .obj fields => findPlaceholdersFields fields found
  | _ => found

/-- `obj.forEach(i => findPlaceholders(i, found))`. -/
def findPlaceholdersList (l : List Json) (found : List String) : List String :=
  match l with
  | [] => found
  | x :: xs => findPlaceholdersList xs (findPlaceholders x found)

/-- `Object.values(obj).forEach(v => findPlaceholders(v, found))`. -/
def findPlaceholdersFields (fs : List (String × Json)) (found : List String) :
    List String :=
  match fs with
  | [] => found
  | (_, v) :: rest => findPlaceholdersFields rest (findPlaceholders v found)

end

/- ------------------------------------------------------------------ -/
/- Template store (src/template-manager.ts: loadTemplate)             -/
/- ------------------------------------------------------------------ -/

/-- The resolved templates directory (`path.resolve(process.cwd(),
'templates')`), abstracted to its final path segment. -/
def TEMPLATES_DIR : String := "templates"

/-- `name.toLowerCase().endsWith('.json')`. -/
def hasJsonSuffix (name : String) : Bool :=
  (".json".toList).isSuffixOf (jsToLower name).toList

/-- The file name `loadTemplate` reads: the given name, with `.json`
appended unless already present (case-insensitively). -/
def templateFileName (name : String) : String :=
  if hasJsonSuffix name then name else name ++ ".json"

/-- The joined path `path.join(TEMPLATES_DIR, fileName)`. -/
def templatePath (name : String) : String :=
  TEMPLATES_DIR ++ "/" ++ templateFileName name

/-- `loadTemplate` from src/template-manager.ts.  The filesystem
(`fs.readFileSync`, which may fail with any I/O error) and `JSON.parse`
(which may fail on malformed input) are passed in as oracles; the
enclosing `try/catch` turns every failure — falsy name, read error, parse
error — into `null` (`none`). -/
def loadTemplate (readFile : String → Except String String)
    (parseJson : String → Except String Json) (name : String) : Option Json :=
  if name = "" then none
  else
    match readFile (templatePath name) with
    | .error _ => none
    | .ok raw =>
        match parseJson raw with
        | .error _ => none
        | .ok j => some j

/- ------------------------------------------------------------------ -/
/- Typed item builder (src/template-manager.ts: buildDataItems)       -/
/- ------------------------------------------------------------------ -/

/-- Which encoder methods the transport's `DataItem` reference exposes.
The source probes these duck-typed (`DataItemRef.u2 ? ... : ...`); calling
an absent one would throw, which the embedding models as `none`. -/
structure Caps where
  u2 : Bool
  u4 : Bool
  i2 : Bool
  i4 : Bool
  f4 : Bool
  f8 : Bool
  bool : Bool
  boolArray : Bool
  b : Bool
  list : Bool
  a : Bool

/-- The encoder's output, opaque to the core beyond the constructor used
and the arguments passed to it (`DataItemRef.a(name, content, size)`,
`DataItemRef.u2(name, n)`, ...). -/
inductive BuiltItem : Type where
  | a (name : Json) (content : String) (size : Json)
  | u2 (name : Json) (v : Option Rat)
  | u4 (name : Json) (v : Option Rat)
  | i2 (name : Json) (v : Option Rat)
  | i4 (name : Json) (v : Option Rat)
  | f4 (name : Json) (v : Option Rat)
  | f8 (name : Json) (v : Option Rat)
  | bool (name : Json) (v : Bool)
  | boolArray (name : Json) (vs : List Json)
  | b (name : Json) (bytes : List Nat)
  | list (name : Json) (elems : List BuiltItem)

/-- A call `DataItemRef.a(name, content, size)`: succeeds iff the `a`
encoder exists. -/
def mkA (caps : Caps) (name : Json) (content : String) (size : Json) :
    Option BuiltItem :=
  if caps.a then some (.a name content size) else none

/-- The default ASCII size `Math.max(1, String(val ?? '').length)`. -/
def aSizeDefault (content : String) : Json :=
  Json.num ((max 1 content.length : Nat) : Rat)

/-- The `'A'` case (also the `default` case) of `buildDataItems`:
`DataItemRef.a(name, String(val ?? ''), it.size || Math.max(1, ...))`. -/
def buildAItem (caps : Caps) (it name : Json) (val : Option Json) :
    Option BuiltItem :=
  let content := jsToString (jsCoalesce val (Json.str ""))
  mkA caps name content (jsOr (jsField it ("size")) (aSizeDefault content))

/-- The numeric argument `Number(val ?? 0)` shared by the numeric cases. -/
def numArg (val : Option Json) : Option Rat :=
  jsToNumber (jsCoalesce val (Json.num 0))

/-- The numeric-case text fallback
`DataItemRef.a(name, String(Number(val ?? 0)), w)`. -/
def numFallback (caps : Caps) (name : Json) (val : Option Json) (w : Nat) :
    Option BuiltItem :=
  mkA caps name (jsNumToString (numArg val)) (Json.num (w : Rat))

/-- The template-literal child name `` `${name}_${i}` ``. -/
def childName (name : Json) (i : Nat) : Json :=
  Json.str (jsToString name ++ "_" ++ toString i)

/-- The per-element boolean items of the `BOOL_ARRAY` LIST fallback:
`val.map((b, i) => DataItemRef.bool(`${name}_${i}`, Boolean(b)))`, with the
text fallback when even the `bool` encoder is missing. -/
def buildBoolChildren (caps : Caps) (name : Json) (vs : List Json) (i : Nat) :
    Option (List BuiltItem) :=
  match vs with
  | [] => some []
  | x :: rest => do
      let child ←
        (if caps.bool then some (BuiltItem.bool (childName name i) (jsTruthy x))
         else mkA caps (childName name i) (jsToString (Json.bool (jsTruthy x))) (Json.num 1))
      let others ← buildBoolChildren caps name rest (i + 1)
      return child :: others

/-- The `'BOOL_ARRAY'` case of `buildDataItems`: native boolean-array
encoder, else a LIST of named booleans, else a JSON-stringified text item;
non-array values fall to a plain text item of size 1. -/
def buildBoolArrayItem (caps : Caps) (name : Json) (val : Option Json) :
    Option BuiltItem :=
  match val with
  | some (Json.arr vs) =>
      if caps.boolArray then some (.boolArray name vs)
      else if caps.list then
        (buildBoolChildren caps name vs 0).map (fun cs => .list name cs)
      else mkA caps name (jsonStringify (Json.arr vs)) (Json.num (vs.length : Rat))
  | _ => mkA caps name (jsToString (jsCoalesce val (Json.str ""))) (Json.num 1)

/-- Truncation toward zero (`ToIntegerOrInfinity`), as applied by
`Buffer.from` to each numeric element. -/
def jsTrunc (q : Rat) : Int :=
  if q ≥ 0 then q.floor else -((-q).floor)

/-- A JS number coerced to a byte, as `Buffer.from(array)` does
(truncation, then modulo 256). -/
def ratToByte (q : Rat) : Nat :=
  ((jsTrunc q) % 256).toNat

/-- An arbitrary JSON array element coerced to a byte by
`Buffer.from(val)` (`NaN` coerces to 0). -/
def jsToByte (j : Json) : Nat :=
  match jsToNumber j with
  | none => 0
  | some q => ratToByte q

/-- The character class kept by `val.replace(/[^0-9a-fA-F]/g, '')`. -/
def isHexDigitJS (c : Char) : Bool :=
  c.isDigit || ('a' ≤ c && c ≤ 'f') || ('A' ≤ c && c ≤ 'F')

/-- Value of a hex digit. -/
def hexVal (c : Char) : Nat :=
  if c.isDigit then c.toNat - '0'.toNat
  else if 'a' ≤ c && c ≤ 'f' then c.toNat - 'a'.toNat + 10
  else c.toNat - 'A'.toNat + 10

/-- `Buffer.from(hex, 'hex')` on an all-hex-digit string: two digits per
byte. -/
def hexDecode : List Char → List Nat
  | c1 :: c2 :: rest => (16 * hexVal c1 + hexVal c2) :: hexDecode rest
  | _ => []

/-- Lower-case hex digit character. -/
def hexDigitChar (n : Nat) : Char :=
  if n < 10 then Char.ofNat ('0'.toNat + n) else Char.ofNat ('a'.toNat + n - 10)

/-- `buf.toString('hex')`. -/
def bytesToHex (bs : List Nat) : String :=
  ⟨bs.foldr (fun b acc => hexDigitChar (b / 16) :: hexDigitChar (b % 16) :: acc) []⟩

/-- The `'B'`/`'BIN'` case of `buildDataItems`: byte arrays encode
directly; strings are split on commas into numbers when a comma is
present, otherwise stripped to their hex digits and decoded when the
residue is non-empty of even length, with a plain text item of the
original string as the final fallback; other values fall to a text item
of size 0. -/
def buildBItem (caps : Caps) (name : Json) (val : Option Json) :
    Option BuiltItem :=
  match val with
  | some (Json.arr vs) =>
      let bytes := vs.map jsToByte
      if caps.b then some (.b name bytes)
      else mkA caps name (bytesToHex bytes) (Json.num (vs.length : Rat))
  | some (Json.str s) =>
      if s.toList.contains ',' then
        let nums := (s.splitOn (",")).filterMap (fun t => jsToNumber (Json.str (jsTrim t)))
        let bytes := nums.map ratToByte
        if caps.b then some (.b name bytes)
        else mkA caps name (bytesToHex bytes) (Json.num (nums.length : Rat))
      else
        let hex := s.toList.filter isHexDigitJS
        if hex.length % 2 == 0 && hex.length > 0 then
          let buf := hexDecode hex
          if caps.b then some (.b name buf)
          else mkA caps name (bytesToHex buf) (Json.num (buf.length : Rat))
        else mkA caps name s (Json.num (s.length : Rat))
  | _ => mkA caps name (jsToString (jsCoalesce val (Json.str ""))) (Json.num 0)

mutual

/-- One iteration of the `items.map(...)` body of `buildDataItems`
(src/template-manager.ts): dispatch on the upper-cased type tag (the JS
`switch` becomes an if-chain), with the per-type encoder/fallback
choices.  In the `LIST` case the source calls
`buildDataItems(val || [], ...)`, which maps over `val` when it is an
array and yields `[]` for every other value (falsy values default to
`[]`, and truthy non-arrays fail the builder's `Array.isArray` test), as
reflected in the match below. -/
def buildItem (caps : Caps) (it : Json) : Option BuiltItem :=
  let t := jsToUpper (jsToString (jsOr (jsField it ("type")) (Json.str ("A"))))
  let name := jsOr (jsField it ("name")) (Json.str ("item"))
  if t = "A" then buildAItem caps it name (jsField it ("value"))
  else if t = "U2" then
    if caps.u2 then some (.u2 name (numArg (jsField it ("value"))))
    else numFallback caps name (jsField it ("value")) 2
  else if t = "U4" then
    if caps.u4 then some (.u4 name (numArg (jsField it ("value"))))
    else numFallback caps name (jsField it ("value")) 4
  else if t = "I2" then
    if caps.i2 then some (.i2 name (numArg (jsField it ("value"))))
    else if caps.i4 then some (.i4 name (numArg (jsField it ("value"))))
    else numFallback caps name (jsField it ("value")) 2
  else if t = "I4" then
    if caps.i4 then some (.i4 name (numArg (jsField it ("value"))))
    else numFallback caps name (jsField it ("value")) 4
  else if t = "F4" then
    if caps.f4 then some (.f4 name (numArg (jsField it ("value"))))
    else numFallback caps name (jsField it ("value")) 4
  else if t = "F8" then
    if caps.f8 then some (.f8 name (numArg (jsField it ("value"))))
    else numFallback caps name (jsField it ("value")) 8
  else if t = "BOOL" then
    if caps.bool then some (.bool name (jsTruthyOpt (jsField it ("value"))))
    else mkA caps name
      (jsToString (Json.bool (jsTruthyOpt (jsField it ("value"))))) (Json.num 1)
  else if t = "BOOL_ARRAY" then buildBoolArrayItem caps name (jsField it ("value"))
  else if t = "B" then buildBItem caps name (jsField it ("value"))
  else if t = "BIN" then buildBItem caps name (jsField it ("value"))
  else if t = "LIST" then
    if caps.list then
      match hv : jsField it ("value") with
      | some (Json.arr sub) =>
          (buildItemList caps sub).map (fun cs => BuiltItem.list name cs)
      | _ => some (BuiltItem.list name [])
    else mkA caps name (jsonStringify (jsOr (jsField it ("value")) (Json.arr [])))
      (Json.num 0)
  else buildAItem caps it name (jsField it ("value"))
termination_by sizeOf it
decreasing_by
  have hlk : ∀ (fs : List (String × Json)) (k : String) (v : Json),
      lookupOwn fs k = some v → sizeOf v < sizeOf fs := by
    intro fs
    induction fs with
    | nil => intro k v h; simp [lookupOwn] at h
    | cons hd tl ih =>
        intro k v h
        obtain ⟨k', v'⟩ := hd
        simp only [lookupOwn] at h
        split at h
        · cases h
          simp
          omega
        · have := ih _ _ h
          simp
          omega
  have hj : sizeOf (Json.arr sub) < sizeOf it := by
    cases it <;> simp [jsField] at hv
    case obj fields =>
      have h2 := hlk _ _ _ hv
      simp at h2 ⊢
      omega
  simp at hj ⊢
  omega

/-- The `items.map(...)` over a descriptor array, with a thrown error from
any element (a missing encoder) propagating. -/
def buildItemList (caps : Caps) (l : List Json) : Option (List BuiltItem) :=
  match l with
  | [] => some []
  | x :: xs => do
      let bi ← buildItem caps x
      let rest ← buildItemList caps xs
      return bi :: rest
termination_by sizeOf l
decreasing_by
  all_goals simp
  omega

end

/-- `buildDataItems(items, DataItemRef)` from src/template-manager.ts:
non-array (or falsy) input yields `[]`, otherwise each descriptor is
built in order. -/
def buildDataItems (items : Json) (caps : Caps) : Option (List BuiltItem) :=
  match items with
  | .arr l => buildItemList caps l
  | _ => some []

/- ------------------------------------------------------------------ -/
/- Correlation table and sendAndWaitIfNeeded (src/server.ts)          -/
/- ------------------------------------------------------------------ -/

/-- `pendingReplies.set(ctx, entry)`: Map insertion (a fresh key appends
in iteration order; an existing key's entry is replaced in place, which
on the context-set level leaves the key set unchanged). -/
def tableSet (t : List Nat) (ctx : Nat) : List Nat :=
  if ctx ∈ t then t else t ++ [ctx]

/-- `pendingReplies.delete(ctx)`. -/
def tableDelete (t : List Nat) (ctx : Nat) : List Nat :=
  t.erase ctx

/-- What the promise returned by `sendAndWaitIfNeeded` is observed to do
when the call returns control to its caller. -/
inductive CallOutcome where
  | waiting
  | sentAck
  | rejected (e : String)

/-- Result of one `sendAndWaitIfNeeded` call: the pending-replies table's
key set afterwards, the promise observation, and whether the armed
timeout is still live. -/
structure CallResult where
  table : List Nat
  outcome : CallOutcome
  timerArmed : Bool

/-- `sendAndWaitIfNeeded(conn, msg, waitForReply, timeoutMs)` from
src/server.ts, at the level of the `pendingReplies` table keyed by
`msg.context`.  The transport's `conn.send` is abstracted by `sendErr`
(`none` = returns normally, `some e` = throws synchronously).  With
`waitForReply` the code arms a timeout, registers the context, then
sends; a synchronous send failure cancels the timeout, deletes the entry
and rejects with the transport's error.  Without `waitForReply` the
promise resolves to the sent acknowledgement, or rejects if `send`
throws. -/
def sendAndWaitIfNeeded (t : List Nat) (ctx : Nat) (waitForReply : Bool)
    (sendErr : Option String) : CallResult :=
  if waitForReply then
    let t1 := tableSet t ctx
    match sendErr with
    | none => ⟨t1, .waiting, true⟩
    | some e => ⟨tableDelete t1 ctx, .rejected e, false⟩
  else
    match sendErr with
    | none => ⟨t, .sentAck, false⟩
    | some e => ⟨t, .rejected e, false⟩

/-- How a registered request's promise finally settles. -/
inductive ReplyOutcome where
  | success (primary reply tc : Nat)
  | timeoutErr

/-- Events that can involve one registered correlation token: the
transport's `trx-complete` event for its context (with the
`{primary, reply, tc}` payload abstracted to identifiers), and the armed
`setTimeout` callback firing. -/
inductive TrxEvent where
  | replyArrives (primary reply tc : Nat)
  | timerFires

/-- State of one registered token: whether its context is still in
`pendingReplies`, whether its timeout is still armed, how its promise has
settled, and how many times `resolve`/`reject` has been invoked on it. -/
structure TokenState where
  inTable : Bool
  timerArmed : Bool
  settled : Option ReplyOutcome
  settleCount : Nat

/-- Promise settlement: the first `resolve`/`reject` wins, later
invocations are no-ops on the stored outcome. -/
def promiseSettle (st : Option ReplyOutcome) (o : ReplyOutcome) :
    Option ReplyOutcome :=
  match st with
  | none => some o
  | some o' => some o'

/-- One event against one token's state.  `replyArrives` runs the
`trx-complete` handler: only if the context is still a live table entry
does it clear the timeout, resolve, and delete the entry; otherwise it is
a no-op.  `timerFires` runs the `setTimeout` callback, which the runtime
delivers only while the timer is armed (in particular never after
`clearTimeout`); it deletes the entry and rejects. -/
def tokenStep (s : TokenState) (e : TrxEvent) : TokenState :=
  match e with
  | .replyArrives p r tc =>
      if s.inTable then
        { inTable := false, timerArmed := false,
          settled := promiseSettle s.settled (.success p r tc),
          settleCount := s.settleCount + 1 }
      else s
  | .timerFires =>
      if s.timerArmed then
        { inTable := false, timerArmed := false,
          settled := promiseSettle s.settled .timeoutErr,
          settleCount := s.settleCount + 1 }
      else s

/-- The token state produced by `sendAndWaitIfNeeded(conn, msg, true, _)`
when `conn.send` returns normally: context registered, timeout armed,
promise unsettled. -/
def registeredState : TokenState :=
  ⟨true, true, none, 0⟩

/-- Run an interleaving of events against a token's state. -/
def runEvents (s : TokenState) (es : List TrxEvent) : TokenState :=
  es.foldl tokenStep s

/-- The outcome the winning (first-delivered) event produces. -/
def firstOutcome (e : TrxEvent) : ReplyOutcome :=
  match e with
  | .replyArrives p r tc => .success p r tc
  | .timerFires => .timeoutErr

/- ------------------------------------------------------------------ -/
/- Send orchestrator and HTTP handlers (src/server.ts,                -/
/- src/template-manager.ts: sendTemplate)                             -/
/- ------------------------------------------------------------------ -/

/-- The outgoing message assembled by `sendTemplate` via
`DataMessage.builder` (`.device(..).stream(..).func(..)
.replyExpected(..).items(...)`). -/
structure DMessage where
  device : Option Rat
  stream : Option Rat
  func : Option Rat
  replyExpected : Bool
  items : List BuiltItem

/-- `sendTemplate(templateObj, values, ...)` from src/template-manager.ts:
substitute placeholders, build the items, assemble the message, then
dispatch through the provided `sendAndWaitIfNeeded` (abstracted here by
`await`, which yields the value the awaited promise settles to).  The
first component records the dispatched message, `none` when the function
throws before reaching the dispatch call. -/
def sendTemplateOp (tpl : Json) (values : List (String × Json)) (caps : Caps)
    (await : DMessage → Bool → Option Rat → Except String Json) :
    Option DMessage × Except String Json :=
  if !(jsTruthy tpl) then (none, .error ("templateObj required"))
  else
    let substituted := substitutePlaceholders tpl values
    let itemsDesc := jsOr (jsField substituted ("items")) (Json.arr [])
    match buildDataItems itemsDesc caps with
    | none => (none, .error ("DataItem builder is not a function"))
    | some builtItems =>
        let stream := jsToNumber (jsCoalesce (jsField substituted ("stream"))
          (jsCoalesce (jsField tpl ("stream")) (Json.num 1)))
        let func := jsToNumber (jsCoalesce (jsField substituted ("func"))
          (jsCoalesce (jsField tpl ("func")) (Json.num 1)))
        let replyExpected := jsTruthy (jsCoalesce (jsField substituted ("replyExpected"))
          (jsCoalesce (jsField tpl ("replyExpected")) (Json.bool false)))
        let device := jsToNumber (jsCoalesce (jsField substituted ("device"))
          (jsCoalesce (jsField tpl ("device")) (Json.num 1)))
        let msg : DMessage := ⟨device, stream, func, replyExpected, builtItems⟩
        let timeoutMs := jsToNumber
          (if jsTruthyOpt (lookupOwn values ("timeoutMs"))
           then jsCoalesce (lookupOwn values ("timeoutMs")) Json.null
           else Json.num 10000)
        (some msg, await msg replyExpected timeoutMs)

/-- HTTP responses the modelled endpoints produce. -/
inductive HttpResponse where
  | badRequest (msg : String)
  | notFound (msg : String)
  | okSent (result : Json)
  | okTemplate (tpl : Json)
  | serverError (msg : String)

/-- `GET /templates/:name` from src/server.ts: load, and 404 on a falsy
result. -/
def getTemplateHandler (readFile : String → Except String String)
    (parseJson : String → Except String Json) (name : String) : HttpResponse :=
  match loadTemplate readFile parseJson name with
  | none => .notFound ("template not found")
  | some tpl =>
      if jsTruthy tpl then .okTemplate tpl else .notFound ("template not found")

/-- The member names every plain JS object inherits from
`Object.prototype` in Node — the ECMA-262 core members plus the Annex B
legacy accessors — which an index expression `values[k]` finds defined
even when `k` is not an own key of `values`. -/
def objectProtoKeys : List String :=
  ["constructor", "hasOwnProperty", "isPrototypeOf", "propertyIsEnumerable",
   "toLocaleString", "toString", "valueOf", "__proto__",
   "__defineGetter__", "__defineSetter__", "__lookupGetter__", "__lookupSetter__"]

/-- The test `(values || {})[k] !== undefined` performed by the
`/send-template` validation, under JS property-lookup semantics: an own
key, or an inherited `Object.prototype` member. -/
def jsDefined (fields : List (String × Json)) (k : String) : Bool :=
  (lookupOwn fields k).isSome || objectProtoKeys.contains k

/-- The own entries of the request's `values || {}` (a non-object value
contributes no own string keys relevant to placeholder lookup). -/
def valueFields (values : Option Json) : List (String × Json) :=
  match values with
  | some (Json.obj fs) => fs
  | _ => []

/-- `POST /send-template` from src/server.ts.  `store` abstracts
`loadTemplate` (the composition with the filesystem oracles is verified
separately), `connPresent` the `!conn` guard, `await` the dispatch.
Returns the HTTP response paired with the dispatched message
(`none` when no dispatch happened). -/
def sendTemplateHandler (store : Json → Option Json) (caps : Caps)
    (connPresent : Bool)
    (await : DMessage → Bool → Option Rat → Except String Json)
    (name templateInline values fromField : Option Json) :
    HttpResponse × Option DMessage :=
  if !(jsTruthyOpt name) && !(jsTruthyOpt templateInline) then
    (.badRequest ("require name or templateInline"), none)
  else if !(jsTruthyOpt fromField) then
    (.badRequest ("require from (host|device)"), none)
  else
    let tpl? : Option Json :=
      if jsTruthyOpt templateInline then templateInline
      else store (name.getD Json.null)
    match tpl? with
    | none => (.notFound ("template not found"), none)
    | some tpl =>
        if !(jsTruthy tpl) then (.notFound ("template not found"), none)
        else
          let placeholders := findPlaceholders tpl []
          let flds := valueFields values
          let missing := placeholders.filter (fun k => !(jsDefined flds k))
          if missing ≠ [] then
            (.badRequest ("Missing template values: " ++
              String.intercalate (", ") missing), none)
          else if !connPresent then
            (.badRequest ("connection not started"), none)
          else
            match sendTemplateOp tpl flds caps await with
            | (d, .ok result) => (.okSent result, d)
            | (d, .error e) => (.serverError e, d)

/- ------------------------------------------------------------------ -/
/- Theorems                                                           -/
/- ------------------------------------------------------------------ -/

theorem substList_map (l : List Json) (V : List (String × Json)) :
    substList l V = l.map (fun x => substitutePlaceholders x V) := by
  induction l with
  | nil => simp [substList]
  | cons x xs ih => simp [substList, ih]

theorem substFields_filter_map (fs : List (String × Json)) (V : List (String × Json)) :
    substFields fs V = (fs.filter (fun kv => kv.1 ≠ "__proto__")).map
      (fun kv => (kv.1, substitutePlaceholders kv.2 V)) := by
  induction fs with
  | nil => simp [substFields]
  | cons kv rest ih =>
      obtain ⟨k, v⟩ := kv
      by_cases hk : k = "__proto__"
      · simp [substFields, hk, ih]
      · simp [substFields, hk, ih]

theorem takeWhile_append_of_all {p : Char → Bool} {l1 : List Char} (l2 : List Char)
    (h : ∀ c ∈ l1, p c = true) :
    (l1 ++ l2).takeWhile p = l1 ++ l2.takeWhile p := by
  induction l1 with
  | nil => simp
  | cons c cs ih =>
      have hc := h c (by simp)
      simp [List.takeWhile_cons, hc]
      exact ih (fun d hd => h d (by simp [hd]))

theorem dropWhile_append_of_all {p : Char → Bool} {l1 : List Char} (l2 : List Char)
    (h : ∀ c ∈ l1, p c = true) :
    (l1 ++ l2).dropWhile p = l2.dropWhile p := by
  induction l1 with
  | nil => simp
  | cons c cs ih =>
      have hc := h c (by simp)
      simp [List.dropWhile_cons, hc]
      exact ih (fun d hd => h d (by simp [hd]))

theorem isWs_ne_rbrace {c : Char} (h : isWs c = true) : c ≠ '}' := by
  intro hc
  subst hc
  simp +decide [isWs] at h

/-- Evaluation of the token regex on a well-formed token with leading
whitespace only: the capture is exactly the key. -/
theorem tokenKeyChars_of_wellFormed (ws : List Char) (kl : List Char)
    (hws : ∀ c ∈ ws, isWs c = true)
    (hne : kl ≠ [])
    (hbr : ∀ c ∈ kl, c ≠ '}')
    (hhd : ∀ c, kl.head? = some c → isWs c = false) :
    tokenKeyChars ('{' :: '{' :: (ws ++ (kl ++ ['}', '}']))) = some kl := by
  have hws' : ∀ c ∈ ws, (fun c => decide (c ≠ '}')) c = true := by
    intro c hc
    simpa using isWs_ne_rbrace (hws c hc)
  have hkl' : ∀ c ∈ kl, (fun c => decide (c ≠ '}')) c = true := by
    intro c hc
    simp [hbr c hc]
  have htake : (ws ++ (kl ++ ['}', '}'])).takeWhile (fun c => decide (c ≠ '}'))
      = ws ++ kl := by
    rw [takeWhile_append_of_all _ hws', takeWhile_append_of_all _ hkl']
    simp [List.takeWhile_cons]
  have hdrop : (ws ++ (kl ++ ['}', '}'])).dropWhile (fun c => decide (c ≠ '}'))
      = ['}', '}'] := by
    rw [dropWhile_append_of_all _ hws', dropWhile_append_of_all _ hkl']
    simp [List.dropWhile_cons]
  have hkey : (ws ++ kl).dropWhile isWs = kl := by
    rw [dropWhile_append_of_all _ hws]
    cases kl with
    | nil => simp
    | cons c cs =>
        have := hhd c (by simp)
        simp [List.dropWhile_cons, this]
  simp only [tokenKeyChars, htake, hdrop, hkey, if_pos rfl]
  simp [hne]

/-- C4.  For a string leaf of the template: a full-token match whose
captured key has an own entry in the value table substitutes to exactly
that entry's value (whatever its JSON shape); a full-token match with no
entry leaves the literal string unchanged; a non-matching string is left
unchanged. -/
theorem c4_string_leaf_substitution (s : String) (V : List (String × Json)) :
    (∀ k v, tokenKey s = some k → lookupOwn V k = some v →
      substitutePlaceholders (Json.str s) V = v)
    ∧ (∀ k, tokenKey s = some k → lookupOwn V k = none →
      substitutePlaceholders (Json.str s) V = Json.str s)
    ∧ (tokenKey s = none → substitutePlaceholders (Json.str s) V = Json.str s) := by
  refine ⟨?_, ?_, ?_⟩
  · intro k v h1 h2
    simp [substitutePlaceholders, h1, h2]
  · intro k h1 h2
    simp [substitutePlaceholders, h1, h2]
  · intro h1
    simp [substitutePlaceholders, h1]

/-- Witness for C4: a matched token substitutes to the table's (non-string)
value; a missing key and a non-token string pass through; the
whitespace-only token (matched by regex backtracking with the final
whitespace character as its key) substitutes through that key. -/
theorem c4_witness :
    substitutePlaceholders (Json.str ("\x7b\x7bmsg\x7d\x7d")) [("msg", Json.num 7)]
      = Json.num 7
    ∧ substitutePlaceholders (Json.str ("\x7b\x7bother\x7d\x7d")) [("msg", Json.num 7)]
      = Json.str ("\x7b\x7bother\x7d\x7d")
    ∧ substitutePlaceholders (Json.str ("pre \x7b\x7bmsg\x7d\x7d post"))
        [("msg", Json.num 7)] = Json.str ("pre \x7b\x7bmsg\x7d\x7d post")
    ∧ substitutePlaceholders (Json.str ("\x7b\x7b \x7d\x7d")) [(" ", Json.num 9)]
      = Json.num 9 := by
  refine ⟨?_, ?_, ?_, ?_⟩
  · exact (c4_string_leaf_substitution ("\x7b\x7bmsg\x7d\x7d") [("msg", Json.num 7)]).1
      ("msg") (Json.num 7) rfl rfl
  · exact (c4_string_leaf_substitution ("\x7b\x7bother\x7d\x7d")
      [("msg", Json.num 7)]).2.1 ("other") rfl rfl
  · exact (c4_string_leaf_substitution ("pre \x7b\x7bmsg\x7d\x7d post")
      [("msg", Json.num 7)]).2.2 rfl
  · exact (c4_string_leaf_substitution ("\x7b\x7b \x7d\x7d") [(" ", Json.num 9)]).1
      (" ") (Json.num 9) rfl rfl

/-- Counterexample to C5 as stated: with whitespace inserted immediately
before the closing braces, the greedy capture keeps that whitespace in the
key, the lookup of the exact key `"k"` therefore fails, and the literal
token string is returned instead of the table's value. -/
theorem c5_counterexample :
    substitutePlaceholders (Json.str ("\x7b\x7bk \x7d\x7d")) [("k", Json.num 1)]
      = Json.str ("\x7b\x7bk \x7d\x7d")
    ∧ substitutePlaceholders (Json.str ("\x7b\x7bk \x7d\x7d")) [("k", Json.num 1)]
      ≠ Json.num 1 := by
  constructor
  · simp +decide [substitutePlaceholders, tokenKey, tokenKeyChars, lookupOwn, isWs]
  · simp +decide [substitutePlaceholders, tokenKey, tokenKeyChars, lookupOwn, isWs]

/-- C5 as amended: whitespace after the opening braces is stripped from the
captured key, so any amount of it still resolves to the table's value for
`k`; whitespace before the closing braces instead becomes part of the
captured key (so only keys carrying that exact trailing whitespace would
match there). -/
theorem c5_leading_whitespace_amended (ws : List Char) (k : String) (v : Json)
    (V : List (String × Json))
    (hws : ∀ c ∈ ws, isWs c = true)
    (hne : k.toList ≠ [])
    (hbr : ∀ c ∈ k.toList, c ≠ '}')
    (hhd : ∀ c, k.toList.head? = some c → isWs c = false)
    (hlook : lookupOwn V k = some v) :
    substitutePlaceholders
      (Json.str ⟨'{' :: '{' :: (ws ++ (k.toList ++ ['}', '}']))⟩) V = v := by
  have htok : tokenKey ⟨'{' :: '{' :: (ws ++ (k.toList ++ ['}', '}']))⟩ = some k := by
    have h2 := tokenKeyChars_of_wellFormed ws k.toList hws hne hbr hhd
    show (tokenKeyChars ('{' :: '{' :: (ws ++ (k.toList ++ ['}', '}'])))).map
      (fun cs => (⟨cs⟩ : String)) = some k
    rw [h2]
    rfl
  simp only [substitutePlaceholders]
  rw [htok]
  simp [hlook]

/-- Witness for the amended C5: two spaces of leading whitespace inside the
braces still resolve to the value for `k`. -/
theorem c5_witness :
    substitutePlaceholders
      (Json.str ⟨'{' :: '{' :: ([' ', ' '] ++ (("k" : String).toList ++ ['}', '}']))⟩)
      [("k", Json.num 1)] = Json.num 1 := by
  exact c5_leading_whitespace_amended [' ', ' '] ("k") (Json.num 1) [("k", Json.num 1)]
    (by decide) (by decide) (by decide) (by decide) rfl

/-- Counterexample to C6 as stated: an object entry keyed `__proto__`
does not survive substitution — the JS assignment `out["__proto__"] = v`
on the fresh output object invokes the inherited `Object.prototype`
accessor instead of creating an own key, so a key is removed. -/
theorem c6_counterexample :
    substitutePlaceholders (Json.obj [("__proto__", Json.num 1)]) []
      = Json.obj [] := by
  simp +decide [substitutePlaceholders, substFields]

/-- C6 as amended.  Substitution is structure-preserving: arrays
substitute element-wise (preserving order and length, as the `List.map`
form shows); objects substitute entry-wise preserving the original keys
other than `__proto__` — an entry with that key is dropped by the JS
assignment, so the key list is preserved exactly for objects without a
`__proto__` key; non-string scalars pass through unchanged.  The model
is a pure function, so input immutability and run-to-run structural
equality of outputs are intrinsic. -/
theorem c6_structure_preservation (V : List (String × Json)) :
    (∀ l : List Json, substitutePlaceholders (Json.arr l) V
        = Json.arr (l.map (fun x => substitutePlaceholders x V)))
    ∧ (∀ fs : List (String × Json), substitutePlaceholders (Json.obj fs) V
        = Json.obj ((fs.filter (fun kv => kv.1 ≠ "__proto__")).map
            (fun kv => (kv.1, substitutePlaceholders kv.2 V)))
        ∧ ((∀ kv ∈ fs, kv.1 ≠ "__proto__") →
            ((fs.filter (fun kv => kv.1 ≠ "__proto__")).map
                (fun kv => (kv.1, substitutePlaceholders kv.2 V))).map Prod.fst
              = fs.map Prod.fst))
    ∧ substitutePlaceholders Json.null V = Json.null
    ∧ (∀ b, substitutePlaceholders (Json.bool b) V = Json.bool b)
    ∧ (∀ q, substitutePlaceholders (Json.num q) V = Json.num q) := by
  refine ⟨?_, ?_, ?_, ?_, ?_⟩
  · intro l
    simp [substitutePlaceholders, substList_map]
  · intro fs
    constructor
    · simp [substitutePlaceholders, substFields_filter_map]
    · intro hfree
      have hfilter : fs.filter (fun kv => kv.1 ≠ "__proto__") = fs :=
        List.filter_eq_self.mpr (fun kv hkv => by simpa using hfree kv hkv)
      rw [hfilter]
      simp [List.map_map]
  · simp [substitutePlaceholders]
  · intro b
    simp [substitutePlaceholders]
  · intro q
    simp [substitutePlaceholders]

/-- Witness for the amended C6: a two-entry object without a `__proto__`
key substitutes entry-wise with its key list intact. -/
theorem c6_witness :
    substitutePlaceholders
        (Json.obj [("a", Json.str ("\x7b\x7bk\x7d\x7d")), ("b", Json.num 3)])
        [("k", Json.num 2)]
      = Json.obj ((([("a", Json.str ("\x7b\x7bk\x7d\x7d")), ("b", Json.num 3)]
            : List (String × Json)).filter (fun kv => kv.1 ≠ "__proto__")).map
          (fun kv => (kv.1, substitutePlaceholders kv.2 [("k", Json.num 2)])))
    ∧ ((([("a", Json.str ("\x7b\x7bk\x7d\x7d")), ("b", Json.num 3)]
            : List (String × Json)).filter (fun kv => kv.1 ≠ "__proto__")).map
          (fun kv => (kv.1, substitutePlaceholders kv.2 [("k", Json.num 2)]))).map
        Prod.fst
      = ([("a", Json.str ("\x7b\x7bk\x7d\x7d")), ("b", Json.num 3)]
          : List (String × Json)).map Prod.fst := by
  have h := (c6_structure_preservation [("k", Json.num 2)]).2.1
    [("a", Json.str ("\x7b\x7bk\x7d\x7d")), ("b", Json.num 3)]
  exact ⟨h.1, h.2 (by decide)⟩

theorem runEvents_absorbed (es : List TrxEvent) (s : TokenState)
    (h1 : s.inTable = false) (h2 : s.timerArmed = false) :
    runEvents s es = s := by
  induction es generalizing s with
  | nil => simp [runEvents]
  | cons e rest ih =>
      have hstep : tokenStep s e = s := by
        cases e <;> simp [tokenStep, h1, h2]
      simp only [runEvents, List.foldl_cons, hstep]
      exact ih s h1 h2

/-- C1.  A `waitForReply` call whose dispatch succeeds leaves its context
registered with an armed timeout and an unsettled promise
(`registeredState`), and from that state every interleaving of
`trx-complete` deliveries and timeout firings settles the promise exactly
once — `resolve`/`reject` is invoked exactly once over the whole trace —
with the outcome (the `{primary, reply}` pairing, or the timeout error)
determined by whichever event wins the race; every later event is a
no-op. -/
theorem c1_exactly_once_resolution (t : List Nat) (ctx : Nat) (e : TrxEvent)
    (rest : List TrxEvent) :
    ctx ∈ (sendAndWaitIfNeeded t ctx true none).table
    ∧ (sendAndWaitIfNeeded t ctx true none).outcome = CallOutcome.waiting
    ∧ (sendAndWaitIfNeeded t ctx true none).timerArmed = true
    ∧ (runEvents registeredState (e :: rest)).settleCount = 1
    ∧ (runEvents registeredState (e :: rest)).settled = some (firstOutcome e) := by
  have hmem : ctx ∈ tableSet t ctx := by
    by_cases h : ctx ∈ t <;> simp [tableSet, h]
  have hfirst : tokenStep registeredState e
      = ⟨false, false, some (firstOutcome e), 1⟩ := by
    cases e <;> simp [tokenStep, registeredState, promiseSettle, firstOutcome]
  have htrace : runEvents registeredState (e :: rest)
      = ⟨false, false, some (firstOutcome e), 1⟩ := by
    simp only [runEvents, List.foldl_cons, hfirst]
    exact runEvents_absorbed rest _ rfl rfl
  refine ⟨?_, ?_, ?_, ?_, ?_⟩
  · simpa [sendAndWaitIfNeeded] using hmem
  · simp [sendAndWaitIfNeeded]
  · simp [sendAndWaitIfNeeded]
  · simp [htrace]
  · simp [htrace]

/-- C7.  When the transport's `send` throws synchronously during a
`waitForReply` dispatch of a fresh context, the timeout is cancelled, the
just-registered entry is removed (restoring the table exactly), and the
promise rejects with the transport's own error. -/
theorem c7_transport_error_rollback (t : List Nat) (ctx : Nat) (e : String)
    (h : ctx ∉ t) :
    sendAndWaitIfNeeded t ctx true (some e) = ⟨t, CallOutcome.rejected e, false⟩ := by
  have herase : tableDelete (tableSet t ctx) ctx = t := by
    simp only [tableSet, tableDelete, if_neg h]
    rw [List.erase_append_right _ h]
    simp
  simp [sendAndWaitIfNeeded, herase]

/-- Witness for C7 at a concrete fresh context. -/
theorem c7_witness :
    sendAndWaitIfNeeded [5] 1 true (some ("boom"))
      = ⟨[5], CallOutcome.rejected ("boom"), false⟩ :=
  c7_transport_error_rollback [5] 1 ("boom") (by simp)

theorem hasJsonSuffix_append (name : String) :
    hasJsonSuffix (name ++ (".json")) = true := by
  have h1 : (jsToLower (name ++ (".json"))).toList
      = name.toList.map Char.toLower ++ (".json" : String).toList := by
    show ((name ++ (".json")).data.map Char.toLower)
      = name.data.map Char.toLower ++ (".json" : String).data
    rw [String.data_append, List.map_append]
    congr 1
  unfold hasJsonSuffix
  rw [h1]
  exact (List.isSuffixOf_iff_suffix).mpr (List.suffix_append _ _)

/-- C10.  `loadTemplate` maps every failure mode to `null`: empty name,
a failing read (missing or unreadable file), and unparseable contents;
names resolve to the same file with or without the `.json` suffix; and
the `GET /templates/:name` handler turns every `null` — malformed stored
JSON included — into the same not-found response as a missing file. -/
theorem c10_load_template_failure_modes
    (readFile : String → Except String String)
    (parseJson : String → Except String Json) :
    loadTemplate readFile parseJson "" = none
    ∧ (∀ name err, readFile (templatePath name) = .error err →
        loadTemplate readFile parseJson name = none)
    ∧ (∀ name raw err, readFile (templatePath name) = .ok raw →
        parseJson raw = .error err → loadTemplate readFile parseJson name = none)
    ∧ (∀ name, name ≠ "" → hasJsonSuffix name = false →
        loadTemplate readFile parseJson (name ++ (".json"))
          = loadTemplate readFile parseJson name)
    ∧ (∀ name, loadTemplate readFile parseJson name = none →
        getTemplateHandler readFile parseJson name
          = .notFound ("template not found")) := by
  refine ⟨?_, ?_, ?_, ?_, ?_⟩
  · simp [loadTemplate]
  · intro name err h
    simp [loadTemplate, h]
  · intro name raw err h1 h2
    simp [loadTemplate, h1, h2]
  · intro name hne hsuf
    have hfn : templateFileName (name ++ (".json")) = templateFileName name := by
      simp [templateFileName, hasJsonSuffix_append, hsuf]
    have hpath : templatePath (name ++ (".json")) = templatePath name := by
      simp [templatePath, hfn]
    have hne2 : (name ++ (".json")) ≠ "" := by
      intro h
      have h5 : ((".json" : String).length) = 5 := by decide
      have hlen := congrArg String.length h
      rw [String.length_append, h5] at hlen
      have h0 : name.length + 5 = 0 := by simpa using hlen
      omega
    simp [loadTemplate, hne, hne2, hpath]
  · intro name h
    simp [getTemplateHandler, h]

/-- Witness for C10 at concrete oracles: an always-failing reader, a
succeeding reader paired with a failing parser, and the suffix identity at
a concrete name. -/
theorem c10_witness :
    loadTemplate (fun _ => Except.error ("ENOENT"))
      (fun _ => Except.error ("bad json")) "" = none
    ∧ loadTemplate (fun _ => Except.error ("ENOENT"))
        (fun _ => Except.error ("bad json")) ("foo") = none
    ∧ loadTemplate (fun _ => Except.ok ("not json"))
        (fun _ => Except.error ("bad json")) ("foo") = none
    ∧ loadTemplate (fun _ => Except.error ("ENOENT"))
        (fun _ => Except.error ("bad json")) ("foo" ++ (".json"))
      = loadTemplate (fun _ => Except.error ("ENOENT"))
          (fun _ => Except.error ("bad json")) ("foo")
    ∧ getTemplateHandler (fun _ => Except.ok ("not json"))
        (fun _ => Except.error ("bad json")) ("foo")
      = .notFound ("template not found") := by
  refine ⟨?_, ?_, ?_, ?_, ?_⟩
  · exact (c10_load_template_failure_modes _ _).1
  · exact (c10_load_template_failure_modes _ _).2.1 ("foo") ("ENOENT") rfl
  · exact (c10_load_template_failure_modes _ _).2.2.1 ("foo") ("not json")
      ("bad json") rfl rfl
  · exact (c10_load_template_failure_modes _ _).2.2.2.1 ("foo") (by decide) (by decide)
  · exact (c10_load_template_failure_modes _ _).2.2.2.2 ("foo")
      ((c10_load_template_failure_modes _ _).2.2.1 ("foo") ("not json") ("bad json")
        rfl rfl)

theorem lookupOwn_sizeOf_lt {fs : List (String × Json)} {k : String} {v : Json}
    (h : lookupOwn fs k = some v) : sizeOf v < sizeOf fs := by
  induction fs with
  | nil => simp [lookupOwn] at h
  | cons hd tl ih =>
      obtain ⟨k', v'⟩ := hd
      simp only [lookupOwn] at h
      split at h
      · cases h
        simp
        omega
      · have := ih h
        simp
        omega

theorem jsField_sizeOf_lt {j : Json} {k : String} {v : Json}
    (h : jsField j k = some v) : sizeOf v < sizeOf j := by
  cases j <;> simp [jsField] at h
  case obj fields =>
    have h2 := lookupOwn_sizeOf_lt h
    simp
    omega

theorem mkA_isSome {caps : Caps} (ha : caps.a = true) (name : Json)
    (content : String) (size : Json) : (mkA caps name content size).isSome = true := by
  simp [mkA, ha]

theorem buildAItem_isSome {caps : Caps} (ha : caps.a = true) (it name : Json)
    (val : Option Json) : (buildAItem caps it name val).isSome = true := by
  simp [buildAItem, mkA, ha]

theorem numFallback_isSome {caps : Caps} (ha : caps.a = true) (name : Json)
    (val : Option Json) (w : Nat) : (numFallback caps name val w).isSome = true := by
  simp [numFallback, mkA, ha]

theorem buildBoolChildren_isSome {caps : Caps} (ha : caps.a = true) (name : Json) :
    ∀ (vs : List Json) (i : Nat), (buildBoolChildren caps name vs i).isSome = true := by
  intro vs
  induction vs with
  | nil => intro i; simp [buildBoolChildren]
  | cons x rest ih =>
      intro i
      obtain ⟨others, ho⟩ := Option.isSome_iff_exists.mp (ih (i + 1))
      by_cases hb : caps.bool
      · simp [buildBoolChildren, hb, ho]
      · simp [buildBoolChildren, hb, mkA, ha, ho]

theorem buildBoolArrayItem_isSome {caps : Caps} (ha : caps.a = true) (name : Json)
    (val : Option Json) : (buildBoolArrayItem caps name val).isSome = true := by
  cases val with
  | none => simp [buildBoolArrayItem, mkA, ha]
  | some j =>
      cases j with
      | null => simp [buildBoolArrayItem, mkA, ha]
      | bool b => simp [buildBoolArrayItem, mkA, ha]
      | num q => simp [buildBoolArrayItem, mkA, ha]
      | str s => simp [buildBoolArrayItem, mkA, ha]
      | obj fs => simp [buildBoolArrayItem, mkA, ha]
      | arr vs =>
          by_cases h1 : caps.boolArray
          · simp [buildBoolArrayItem, h1]
          · by_cases h2 : caps.list
            · obtain ⟨cs, hcs⟩ := Option.isSome_iff_exists.mp
                (buildBoolChildren_isSome ha name vs 0)
              simp [buildBoolArrayItem, h1, h2, hcs]
            · simp [buildBoolArrayItem, h1, h2, mkA, ha]

theorem buildBItem_isSome {caps : Caps} (ha : caps.a = true) (name : Json)
    (val : Option Json) : (buildBItem caps name val).isSome = true := by
  cases val with
  | none => simp [buildBItem, mkA, ha]
  | some j =>
      cases j with
      | null => simp [buildBItem, mkA, ha]
      | bool b => simp [buildBItem, mkA, ha]
      | num q => simp [buildBItem, mkA, ha]
      | obj fs => simp [buildBItem, mkA, ha]
      | arr vs =>
          by_cases hb : caps.b <;> simp [buildBItem, hb, mkA, ha]
      | str s =>
          simp only [buildBItem]
          split_ifs <;> simp [mkA, ha]

theorem buildItemList_total (caps : Caps) :
    ∀ (l : List Json), (∀ x ∈ l, (buildItem caps x).isSome = true) →
      ∃ out, buildItemList caps l = some out ∧ out.length = l.length := by
  intro l
  induction l with
  | nil => intro _; exact ⟨[], by simp [buildItemList], rfl⟩
  | cons x xs ih =>
      intro h
      obtain ⟨bi, hbi⟩ := Option.isSome_iff_exists.mp (h x (by simp))
      obtain ⟨out, hout, hlen⟩ := ih (fun y hy => h y (by simp [hy]))
      refine ⟨bi :: out, ?_, by simp [hlen]⟩
      simp [buildItemList, hbi, hout]

theorem ite_isSome {α : Type} (c : Prop) [Decidable c] {x y : Option α}
    (hx : x.isSome = true) (hy : y.isSome = true) :
    (if c then x else y).isSome = true := by
  by_cases h : c <;> simp [h, hx, hy]

theorem buildItem_isSome (caps : Caps) (ha : caps.a = true) :
    ∀ (n : Nat) (j : Json), sizeOf j < n → (buildItem caps j).isSome = true := by
  intro n
  induction n with
  | zero => intro j hj; omega
  | succ n ih =>
      intro j hj
      rw [buildItem]
      refine ite_isSome _ (buildAItem_isSome ha _ _ _) ?_
      refine ite_isSome _ (ite_isSome _ rfl (numFallback_isSome ha _ _ _)) ?_
      refine ite_isSome _ (ite_isSome _ rfl (numFallback_isSome ha _ _ _)) ?_
      refine ite_isSome _
        (ite_isSome _ rfl (ite_isSome _ rfl (numFallback_isSome ha _ _ _))) ?_
      refine ite_isSome _ (ite_isSome _ rfl (numFallback_isSome ha _ _ _)) ?_
      refine ite_isSome _ (ite_isSome _ rfl (numFallback_isSome ha _ _ _)) ?_
      refine ite_isSome _ (ite_isSome _ rfl (numFallback_isSome ha _ _ _)) ?_
      refine ite_isSome _ (ite_isSome _ rfl (mkA_isSome ha _ _ _)) ?_
      refine ite_isSome _ (buildBoolArrayItem_isSome ha _ _) ?_
      refine ite_isSome _ (buildBItem_isSome ha _ _) ?_
      refine ite_isSome _ (buildBItem_isSome ha _ _) ?_
      refine ite_isSome _ ?_ (buildAItem_isSome ha _ _ _)
      refine ite_isSome _ ?_ (mkA_isSome ha _ _ _)
      rcases hval : jsField j ("value") with _ | v
      · rfl
      · cases v with
        | arr sub =>
            have hs1 := jsField_sizeOf_lt hval
            have hs2 : sizeOf sub < sizeOf j := by
              have harr : sizeOf (Json.arr sub) = 1 + sizeOf sub := by simp
              omega
            have hmem : ∀ x ∈ sub, (buildItem caps x).isSome = true := by
              intro x hx
              have hx2 := List.sizeOf_lt_of_mem hx
              exact ih x (by omega)
            obtain ⟨out, hout, _⟩ := buildItemList_total caps sub hmem
            show (Option.map (fun cs => BuiltItem.list
              (jsOr (jsField j ("name")) (Json.str ("item"))) cs)
              (buildItemList caps sub)).isSome = true
            rw [hout]
            rfl
        | null => rfl
        | bool b => rfl
        | num q => rfl
        | str s => rfl
        | obj fs => rfl

/-- C3.  For every descriptor list (in particular those whose `type`
fields are strings, as the claim restricts to), the builder — given the
always-present ASCII fallback encoder — never fails, whatever the other
transport capabilities, and returns exactly one built item per
descriptor. -/
theorem c3_build_total_same_length (descs : List Json) (caps : Caps)
    (ha : caps.a = true)
    (_htypes : ∀ d ∈ descs, ∃ s, jsField d ("type") = some (Json.str s)) :
    ∃ out, buildDataItems (Json.arr descs) caps = some out
      ∧ out.length = descs.length := by
  have hmem : ∀ x ∈ descs, (buildItem caps x).isSome = true := by
    intro x hx
    exact buildItem_isSome caps ha (sizeOf x + 1) x (by omega)
  obtain ⟨out, hout, hlen⟩ := buildItemList_total caps descs hmem
  exact ⟨out, by simp [buildDataItems, hout], hlen⟩

/-- Witness for C3 at a concrete two-descriptor list (one of them of an
unknown type tag) against a transport providing only the ASCII encoder. -/
theorem c3_witness :
    ∃ out,
      buildDataItems
        (Json.arr [Json.obj [("type", Json.str ("A")), ("name", Json.str ("x")),
            ("value", Json.str ("hi"))],
          Json.obj [("type", Json.str ("WAT")), ("value", Json.bool true)]])
        ⟨false, false, false, false, false, false, false, false, false, false, true⟩
      = some out ∧ out.length = 2 := by
  have h := c3_build_total_same_length
    [Json.obj [("type", Json.str ("A")), ("name", Json.str ("x")),
        ("value", Json.str ("hi"))],
      Json.obj [("type", Json.str ("WAT")), ("value", Json.bool true)]]
    ⟨false, false, false, false, false, false, false, false, false, false, true⟩
    rfl ?_
  · exact h
  · intro d hd
    simp at hd
    rcases hd with h1 | h1 <;> subst h1
    · exact ⟨"A", rfl⟩
    · exact ⟨"WAT", rfl⟩

theorem buildBoolChildren_eq {caps : Caps} (hb : caps.bool = true) (name : Json) :
    ∀ (vs : List Json) (i : Nat),
      buildBoolChildren caps name vs i
        = some (List.zipWith
            (fun idx x => BuiltItem.bool (childName name idx) (jsTruthy x))
            (List.range' i vs.length) vs) := by
  intro vs
  induction vs with
  | nil => intro i; simp [buildBoolChildren]
  | cons x rest ih =>
      intro i
      simp [buildBoolChildren, hb, ih (i + 1), List.range'_succ]

/-- C8.  A `BOOL_ARRAY` descriptor with an array value, against a
transport without a native boolean-array encoder but with `list` and
`bool` encoders, builds a LIST named after the descriptor containing one
boolean item per element, in order, named `name_0, name_1, …`, each
carrying its element coerced to boolean. -/
theorem c8_bool_array_list_fallback (caps : Caps) (it nm : Json) (vs : List Json)
    (hba : caps.boolArray = false) (hl : caps.list = true) (hb : caps.bool = true)
    (ht : jsField it ("type") = some (Json.str ("BOOL_ARRAY")))
    (hn : jsField it ("name") = some nm) (hnm : jsTruthy nm = true)
    (hv : jsField it ("value") = some (Json.arr vs)) :
    buildItem caps it = some (BuiltItem.list nm
      (List.zipWith (fun i x => BuiltItem.bool (childName nm i) (jsTruthy x))
        (List.range vs.length) vs)) := by
  have htag : jsToUpper (jsToString (jsOr (jsField it ("type")) (Json.str ("A"))))
      = "BOOL_ARRAY" := by
    rw [ht]
    have h1 : jsOr (some (Json.str ("BOOL_ARRAY"))) (Json.str ("A"))
        = Json.str ("BOOL_ARRAY") := by
      simp +decide [jsOr, jsTruthy]
    rw [h1]
    have h2 : jsToString (Json.str ("BOOL_ARRAY")) = "BOOL_ARRAY" := by
      simp [jsToString]
    rw [h2]
    decide
  have hname : jsOr (jsField it ("name")) (Json.str ("item")) = nm := by
    rw [hn]
    simp [jsOr, hnm]
  rw [buildItem, htag, hname, hv]
  simp +decide [buildBoolArrayItem, hba, hl, buildBoolChildren_eq hb,
    List.range_eq_range']

/-- Witness for C8 at the end-to-end scenario: `flags = [true, false,
true]` against a transport lacking `boolArray`. -/
theorem c8_witness :
    buildItem ⟨true, true, true, true, true, true, true, false, true, true, true⟩
      (Json.obj [("type", Json.str ("BOOL_ARRAY")), ("name", Json.str ("flags")),
        ("value", Json.arr [Json.bool true, Json.bool false, Json.bool true])])
    = some (BuiltItem.list (Json.str ("flags"))
        [BuiltItem.bool (Json.str ("flags_0")) true,
         BuiltItem.bool (Json.str ("flags_1")) false,
         BuiltItem.bool (Json.str ("flags_2")) true]) := by
  have h := c8_bool_array_list_fallback
    ⟨true, true, true, true, true, true, true, false, true, true, true⟩
    (Json.obj [("type", Json.str ("BOOL_ARRAY")), ("name", Json.str ("flags")),
      ("value", Json.arr [Json.bool true, Json.bool false, Json.bool true])])
    (Json.str ("flags")) [Json.bool true, Json.bool false, Json.bool true]
    rfl rfl rfl rfl rfl (by decide) rfl
  rw [h]
  rw [show List.range ([Json.bool true, Json.bool false, Json.bool true].length)
    = [0, 1, 2] from by decide]
  simp +decide [childName, jsToString, jsTruthy]

theorem hexDecode_length : ∀ (cs : List Char), (hexDecode cs).length = cs.length / 2
  | [] => by simp [hexDecode]
  | [c] => by simp [hexDecode]
  | c1 :: c2 :: rest => by
      simp [hexDecode, hexDecode_length rest]
      omega

/-- C9.  A `B`/`BIN` descriptor with a comma-free string value: the
non-hex characters are stripped; a non-empty even-length residue decodes
two hex digits per byte (so the byte count is exactly half the residue
length — never a half byte); an odd or empty residue degrades to a plain
text item carrying the original string.  No failure occurs in either
case. -/
theorem c9_binary_hex_fallback (caps : Caps) (it nm : Json) (v : String)
    (ht : jsField it ("type") = some (Json.str ("B"))
      ∨ jsField it ("type") = some (Json.str ("BIN")))
    (hn : jsField it ("name") = some nm) (hnm : jsTruthy nm = true)
    (hv : jsField it ("value") = some (Json.str v))
    (hc : ',' ∉ v.toList) :
    ((v.toList.filter isHexDigitJS).length % 2 = 0 →
        v.toList.filter isHexDigitJS ≠ [] → caps.b = true →
        buildItem caps it
          = some (BuiltItem.b nm (hexDecode (v.toList.filter isHexDigitJS)))
        ∧ (hexDecode (v.toList.filter isHexDigitJS)).length
            = (v.toList.filter isHexDigitJS).length / 2)
    ∧ (¬((v.toList.filter isHexDigitJS).length % 2 = 0
          ∧ v.toList.filter isHexDigitJS ≠ []) → caps.a = true →
        buildItem caps it = some (BuiltItem.a nm v (Json.num (v.length : Rat)))) := by
  have hname : jsOr (jsField it ("name")) (Json.str ("item")) = nm := by
    rw [hn]
    simp [jsOr, hnm]
  have hbuild : buildItem caps it = buildBItem caps nm (some (Json.str v)) := by
    rcases ht with ht | ht
    · have htag : jsToUpper (jsToString (jsOr (jsField it ("type")) (Json.str ("A"))))
          = "B" := by
        rw [ht]
        have h1 : jsOr (some (Json.str ("B"))) (Json.str ("A")) = Json.str ("B") := by
          simp +decide [jsOr, jsTruthy]
        rw [h1]
        have h2 : jsToString (Json.str ("B")) = "B" := by simp [jsToString]
        rw [h2]
        decide
      rw [buildItem, htag, hname, hv]
      simp +decide []
    · have htag : jsToUpper (jsToString (jsOr (jsField it ("type")) (Json.str ("A"))))
          = "BIN" := by
        rw [ht]
        have h1 : jsOr (some (Json.str ("BIN"))) (Json.str ("A")) = Json.str ("BIN") := by
          simp +decide [jsOr, jsTruthy]
        rw [h1]
        have h2 : jsToString (Json.str ("BIN")) = "BIN" := by simp [jsToString]
        rw [h2]
        decide
      rw [buildItem, htag, hname, hv]
      simp +decide []
  have hcontains : ¬((v.toList.contains ',') = true) := by
    simp
    exact hc
  constructor
  · intro heven hne hcb
    have hpos : 0 < (v.toList.filter isHexDigitJS).length := List.length_pos.mpr hne
    have hcond : (((v.toList.filter isHexDigitJS).length % 2 == 0)
        && decide ((v.toList.filter isHexDigitJS).length > 0)) = true := by
      simp
      exact ⟨heven, hpos⟩
    constructor
    · rw [hbuild]
      simp only [buildBItem]
      rw [if_neg hcontains, if_pos hcond, if_pos hcb]
    · exact hexDecode_length _
  · intro hodd hca
    have hcond : (((v.toList.filter isHexDigitJS).length % 2 == 0)
        && decide ((v.toList.filter isHexDigitJS).length > 0)) = false := by
      rcases Nat.eq_zero_or_pos (v.toList.filter isHexDigitJS).length with h0 | hp
      · rw [h0]
        simp
      · have hne2 : v.toList.filter isHexDigitJS ≠ [] := by
          intro h
          rw [h] at hp
          simp at hp
        have hno : ¬(v.toList.filter isHexDigitJS).length % 2 = 0 :=
          fun he => hodd ⟨he, hne2⟩
        cases hbeq : ((v.toList.filter isHexDigitJS).length % 2 == 0) with
        | false => rfl
        | true => exact absurd (by simpa using hbeq) hno
    have hcond' : ¬((((v.toList.filter isHexDigitJS).length % 2 == 0)
        && decide ((v.toList.filter isHexDigitJS).length > 0)) = true) := by
      rw [hcond]
      simp
    rw [hbuild]
    simp only [buildBItem]
    rw [if_neg hcontains, if_neg hcond']
    simp [mkA, hca]

/-- Witness for C9: the string `"1f2e"` decodes to two bytes; the string
`"0x1f"` (odd residue `01f` after stripping the non-hex `x`) falls back to
a plain text item of the original string. -/
theorem c9_witness :
    buildItem ⟨true, true, true, true, true, true, true, true, true, true, true⟩
      (Json.obj [("type", Json.str ("B")), ("name", Json.str ("x")),
        ("value", Json.str ("1f2e"))])
      = some (BuiltItem.b (Json.str ("x"))
          (hexDecode ((("1f2e" : String).toList.filter isHexDigitJS))))
    ∧ (hexDecode ((("1f2e" : String).toList.filter isHexDigitJS))).length
        = (("1f2e" : String).toList.filter isHexDigitJS).length / 2
    ∧ buildItem ⟨true, true, true, true, true, true, true, true, true, true, true⟩
        (Json.obj [("type", Json.str ("B")), ("name", Json.str ("x")),
          ("value", Json.str ("0x1f"))])
        = some (BuiltItem.a (Json.str ("x")) ("0x1f")
            (Json.num ((("0x1f" : String).length : Nat) : Rat))) := by
  have h1 := (c9_binary_hex_fallback
    ⟨true, true, true, true, true, true, true, true, true, true, true⟩
    (Json.obj [("type", Json.str ("B")), ("name", Json.str ("x")),
      ("value", Json.str ("1f2e"))])
    (Json.str ("x")) ("1f2e") (Or.inl rfl) rfl (by decide) rfl (by decide)).1
    (by decide) (by decide) rfl
  have h2 := (c9_binary_hex_fallback
    ⟨true, true, true, true, true, true, true, true, true, true, true⟩
    (Json.obj [("type", Json.str ("B")), ("name", Json.str ("x")),
      ("value", Json.str ("0x1f"))])
    (Json.str ("x")) ("0x1f") (Or.inl rfl) rfl (by decide) rfl (by decide)).2
    (by decide) rfl
  exact ⟨h1.1, h1.2, h2⟩

/-- C2 as amended.  Under the handler's earlier guards (a `from` field, a
named-or-inline template that resolves and is truthy, a live connection),
`/send-template` fails with the synchronous `Missing template values`
validation error — performing no item building, message assembly, or
dispatch — if and only if some placeholder discovered by
`findPlaceholders` is *undefined under JavaScript property lookup* on the
value table, i.e. neither an own key nor an inherited `Object.prototype`
member name; a placeholder named after an `Object.prototype` member (such
as `toString`) therefore passes validation even with no entry in the
table. -/
theorem c2_validation_iff_amended (store : Json → Option Json) (caps : Caps)
    (await : DMessage → Bool → Option Rat → Except String Json)
    (name templateInline values fromField : Option Json) (tpl : Json)
    (h1 : (!(jsTruthyOpt name) && !(jsTruthyOpt templateInline)) = false)
    (h2 : jsTruthyOpt fromField = true)
    (h3 : (if jsTruthyOpt templateInline then templateInline
           else store (name.getD Json.null)) = some tpl)
    (h4 : jsTruthy tpl = true) :
    ((∃ m, (sendTemplateHandler store caps true await
          name templateInline values fromField).1
        = HttpResponse.badRequest ("Missing template values: " ++ m))
      ↔ ∃ k ∈ findPlaceholders tpl [], jsDefined (valueFields values) k = false)
    ∧ ((∃ k ∈ findPlaceholders tpl [], jsDefined (valueFields values) k = false) →
        (sendTemplateHandler store caps true await
          name templateInline values fromField).2 = none) := by
  have hout : sendTemplateHandler store caps true await
      name templateInline values fromField
      = (if (findPlaceholders tpl []).filter
            (fun k => !(jsDefined (valueFields values) k)) ≠ [] then
          (.badRequest ("Missing template values: " ++ String.intercalate (", ")
            ((findPlaceholders tpl []).filter
              (fun k => !(jsDefined (valueFields values) k)))), none)
        else
          match sendTemplateOp tpl (valueFields values) caps await with
          | (d, .ok result) => (.okSent result, d)
          | (d, .error e) => (.serverError e, d)) := by
    simp only [sendTemplateHandler, h1, h2, h3, h4, Bool.not_true, Bool.false_eq_true,
      if_false, if_true]
  by_cases hm : (findPlaceholders tpl []).filter
      (fun k => !(jsDefined (valueFields values) k)) = []
  · have hnone : ¬∃ k ∈ findPlaceholders tpl [],
        jsDefined (valueFields values) k = false := by
      intro ⟨k, hk, hdef⟩
      have hall := List.filter_eq_nil_iff.mp hm k hk
      simp [hdef] at hall
    constructor
    · constructor
      · intro ⟨m, hrq⟩
        rw [hout, if_neg (by simp [hm])] at hrq
        exfalso
        rcases hres : sendTemplateOp tpl (valueFields values) caps await with ⟨d, r⟩
        rw [hres] at hrq
        cases r with
        | ok result => exact HttpResponse.noConfusion hrq
        | error e => exact HttpResponse.noConfusion hrq
      · intro hex
        exact absurd hex hnone
    · intro hex
      exact absurd hex hnone
  · constructor
    · constructor
      · intro _
        obtain ⟨k, hk⟩ := List.exists_mem_of_ne_nil _ hm
        have hk2 := List.mem_filter.mp hk
        exact ⟨k, hk2.1, by simpa using hk2.2⟩
      · intro _
        rw [hout, if_pos hm]
        exact ⟨_, rfl⟩
    · intro _
      rw [hout, if_pos hm]

/-- Witness for the amended C2: an inline template whose only placeholder
`foo` has no entry (own or inherited) in an empty value table is rejected
with the validation error. -/
theorem c2_witness :
    ∃ m, (sendTemplateHandler (fun _ => none)
        ⟨true, true, true, true, true, true, true, true, true, true, true⟩ true
        (fun _ _ _ => Except.ok (Json.str ("sent")))
        none (some (Json.obj [("x", Json.str ("\x7b\x7bfoo\x7d\x7d"))]))
        (some (Json.obj [])) (some (Json.str ("host")))).1
      = HttpResponse.badRequest ("Missing template values: " ++ m) := by
  apply (c2_validation_iff_amended (fun _ => none)
    ⟨true, true, true, true, true, true, true, true, true, true, true⟩
    (fun _ _ _ => Except.ok (Json.str ("sent")))
    none (some (Json.obj [("x", Json.str ("\x7b\x7bfoo\x7d\x7d"))]))
    (some (Json.obj [])) (some (Json.str ("host")))
    (Json.obj [("x", Json.str ("\x7b\x7bfoo\x7d\x7d"))])
    rfl rfl rfl rfl).1.mpr
  refine ⟨"foo", ?_, ?_⟩
  · simp +decide [findPlaceholders, findPlaceholdersFields, tokenKey, tokenKeyChars,
      addToSet, isWs]
  · rfl

/-- Counterexample to C2 as stated: the template's single discovered
placeholder `toString` has no entry in the (empty) supplied value table,
yet the request does not fail validation — `({})['toString']` finds the
inherited `Object.prototype.toString`, so the handler proceeds, dispatches
a message, and succeeds, with the token left unresolved. -/
theorem c2_counterexample :
    findPlaceholders (Json.obj [("x", Json.str ("\x7b\x7btoString\x7d\x7d"))]) []
      = ["toString"]
    ∧ lookupOwn (valueFields (some (Json.obj []))) ("toString") = none
    ∧ (sendTemplateHandler (fun _ => none)
        ⟨true, true, true, true, true, true, true, true, true, true, true⟩ true
        (fun _ _ _ => Except.ok (Json.str ("sent")))
        none (some (Json.obj [("x", Json.str ("\x7b\x7btoString\x7d\x7d"))]))
        (some (Json.obj [])) (some (Json.str ("host")))).1
      = HttpResponse.okSent (Json.str ("sent"))
    ∧ (sendTemplateHandler (fun _ => none)
        ⟨true, true, true, true, true, true, true, true, true, true, true⟩ true
        (fun _ _ _ => Except.ok (Json.str ("sent")))
        none (some (Json.obj [("x", Json.str ("\x7b\x7btoString\x7d\x7d"))]))
        (some (Json.obj [])) (some (Json.str ("host")))).2 ≠ none := by
  refine ⟨?_, rfl, ?_, ?_⟩
  · simp +decide [findPlaceholders, findPlaceholdersFields, tokenKey, tokenKeyChars,
      addToSet, isWs]
  · simp +decide [sendTemplateHandler, jsTruthyOpt, jsTruthy, findPlaceholders,
      findPlaceholdersFields, tokenKey, tokenKeyChars, addToSet, isWs, valueFields,
      jsDefined, lookupOwn, objectProtoKeys, sendTemplateOp, substitutePlaceholders,
      substFields, substList, jsField, jsOr, jsCoalesce, buildDataItems, buildItemList,
      jsToNumber]
  · simp +decide [sendTemplateHandler, jsTruthyOpt, jsTruthy, findPlaceholders,
      findPlaceholdersFields, tokenKey, tokenKeyChars, addToSet, isWs, valueFields,
      jsDefined, lookupOwn, objectProtoKeys, sendTemplateOp, substitutePlaceholders,
      substFields, substList, jsField, jsOr, jsCoalesce, buildDataItems, buildItemList,
      jsToNumber]
